import Mathlib

/-!
Verification development for the citation-enrichment program in
src/metalband/merge.py.  The Python module is shallowly embedded below:
pure helpers become Lean functions, the mutable dictionaries become
association lists whose most recent binding shadows older ones (which is
extensionally the Python dict for lookups), and the effectful pipeline
becomes an explicit state-passing function that also records the remote
queries it issues and the number of cache flushes it performs.  External
collaborators (the lxml parser, the pyalex client, file I/O, the json
codec) are modelled at their boundary, as the spec prescribes: the corpus
arrives as a list of already-parsed records, the remote source is an
oracle `String -> Option (List Int)` (`none` = the pyalex call raised),
and cache persistence stores the in-memory mapping verbatim (JSON
round-trips a string-keyed map of integer lists losslessly).
-/

/-- Association lookup mirroring Python dict indexing: the most recent
binding (head-most) wins. -/
def alookup {α : Type} : List (String × α) → String → Option α
  | [], _ => none
  | (k, v) :: m, q => if q = k then some v else alookup m q

/-- Dict assignment `m[k] = v`, modelled by shadowing: the new binding is
consulted first by `alookup`. -/
def dput {α : Type} (m : List (String × α)) (k : String) (v : α) : List (String × α) :=
  (k, v) :: m

/-- Mirrors `citations_map[key].append(y)` on a `defaultdict(list)`: the
current list for `k` (empty when absent) is extended with `y`. -/
def capp (m : List (String × List Int)) (k : String) (y : Int) : List (String × List Int) :=
  (k, ((alookup m k).getD []) ++ [y]) :: m

/-- Python whitespace characters stripped by `str.strip()` (ASCII range). -/
def isPySpace (c : Char) : Bool :=
  c = ' ' || c = '\t' || c = '\n' || c = '\r' || c = '\x0b' || c = '\x0c'

/-- Mirrors `str.strip()`: drop whitespace from both ends. -/
def pyStrip (s : String) : String :=
  String.mk (List.reverse (List.dropWhile isPySpace
    (List.reverse (List.dropWhile isPySpace s.data))))

/-- Mirrors `str.lower()` on the ASCII range: map the letters A-Z
(codepoints 65-90) to a-z by adding 32. -/
def pyLowerChar (c : Char) : Char :=
  if 65 ≤ c.toNat ∧ c.toNat ≤ 90 then Char.ofNat (c.toNat + 32) else c

/-- The character class kept by `re.sub(r"[\W_]+", "", s)` over the ASCII
range: a character survives iff it is a letter or a digit (the pattern
removes every non-word character and the underscore). -/
def isAsciiAlnum (c : Char) : Bool :=
  (97 ≤ c.toNat && c.toNat ≤ 122) || (65 ≤ c.toNat && c.toNat ≤ 90)
    || (48 ≤ c.toNat && c.toNat ≤ 57)

/-- Mirrors `normalize_title` (merge.py lines 84-88):
`re.sub(r"[\W_]+", "", title.lower())`, with `None`/empty input giving the
empty string.  Lowering then deleting the non-kept characters is expressed
as map-then-filter over the character list. -/
def normalize_title (s : String) : String :=
  String.mk ((s.data.map pyLowerChar).filter isAsciiAlnum)

/-- Characters allowed in the output of `normalize_title`: ASCII
lower-case letters (97-122) and decimal digits (48-57). -/
def goodOutput (c : Char) : Bool :=
  (97 ≤ c.toNat && c.toNat ≤ 122) || (48 ≤ c.toNat && c.toNat ≤ 57)

/-- Digits of an integer literal folded to its value. -/
def digitsVal (cs : List Char) : Nat :=
  cs.foldl (fun a c => a * 10 + (c.toNat - 48)) 0

/-- Mirrors Python `int(text)` on the inputs the corpus supplies: optional
surrounding whitespace, an optional sign, then a non-empty digit string;
anything else raises `ValueError`, modelled as `none`. -/
def pyInt (s : String) : Option Int :=
  match (pyStrip s).data with
  | [] => none
  | c :: rest =>
    if c = '-' then
      if rest ≠ [] ∧ rest.all Char.isDigit then some (-(digitsVal rest : Int)) else none
    else if c = '+' then
      if rest ≠ [] ∧ rest.all Char.isDigit then some ((digitsVal rest : Int)) else none
    else if (c :: rest).all Char.isDigit then some ((digitsVal (c :: rest) : Int))
    else none

/-- Python `a or b` over optional strings: a present but empty (falsy)
string also falls through to `b`.  Mirrors
`doi_map.get(paper_doi) or title_map.get(...)` in merge.py line 195. -/
def pyOr (a b : Option String) : Option String :=
  match a with
  | some s => if s = "" then b else some s
  | none => b

/-- Substring containment, mirroring Python `needle in hay`. -/
def strContains (hay needle : String) : Bool :=
  decide (needle.data <:+: hay.data)

/-- Final piece of the Python non-overlapping split on a separator: scan
left to right; at a separator occurrence consume it and restart the piece;
otherwise advance one character; when no further occurrence exists the
current remainder (from the piece start) is the final piece.  The fuel
argument makes the recursion structural; it never runs out when seeded
with the length of the scanned list, since every step shortens it. -/
def lastPieceAfter (sep : List Char) : Nat → List Char → List Char
  | 0, cs => cs
  | fuel + 1, cs =>
    match cs with
    | [] => []
    | _ :: rest =>
      if sep.isPrefixOf cs then lastPieceAfter sep fuel (List.drop sep.length cs)
      else if decide (sep <:+: rest) then lastPieceAfter sep fuel rest
      else cs

/-- Mirrors `ee.text.split("doi.org/")[-1]`: the suffix after the last
left-to-right non-overlapping occurrence of the DOI marker (the final
piece of the split). -/
def afterMarker (s : String) : String :=
  String.mk (lastPieceAfter "doi.org/".data s.data.length s.data)

/-- One parsed DBLP record as the indexer sees it (merge.py lines 118-147):
the `key` attribute, the text of the first `title` child, the texts of the
`ee` children, the text of the `year` child, and the texts of the `cite`
children.  A child element present but with no text is modelled as the
empty string, which the code treats identically (falsy). -/
structure DblpRecord where
  key : Option String
  title : Option String
  ee : List String
  year : Option String
  cite : List String
deriving DecidableEq

/-- The three lookup tables built in Phase 1 (merge.py lines 94-96). -/
structure CitationIndex where
  dm : List (String × String)
  tm : List (String × String)
  cm : List (String × List Int)
deriving DecidableEq

/-- Title registration for one record (merge.py lines 127-131): if the
record has a non-empty title whose normalization is non-empty, bind the
normalization to the record's key. -/
def stepTitle (tm : List (String × String)) (k : String) : Option String → List (String × String)
  | none => tm
  | some t =>
    if t = "" then tm
    else if normalize_title t = "" then tm
    else dput tm (normalize_title t) k

/-- First `ee` field holding the DOI marker, already split (merge.py lines
133-137): scan in order, and at the first non-empty text containing
"doi.org/" return the substring after the marker; the `break` means a
record contributes at most this one identifier. -/
def firstDoi : List String → Option String
  | [] => none
  | e :: es =>
    if e ≠ "" ∧ strContains e "doi.org/" = true then some (afterMarker e)
    else firstDoi es

/-- DOI registration for one record: bind the extracted identifier of the
first matching `ee` field, if any, to the record's key. -/
def stepDoi (dm : List (String × String)) (k : String) (ees : List String) : List (String × String) :=
  match firstDoi ees with
  | some d => dput dm d k
  | none => dm

/-- Citation registration for one record (merge.py lines 139-147): when the
record's year parses, append it under every non-empty, non-placeholder
cited key. -/
def stepCites (cm : List (String × List Int)) : Option String → List String → List (String × List Int)
  | none, _ => cm
  | some ys, cites =>
    match pyInt ys with
    | none => cm
    | some y => cites.foldl (fun m c => if c ≠ "" ∧ c ≠ "..." then capp m c y else m) cm

/-- Processing of one record element in the Phase 1 loop (merge.py lines
118-147): a record with no key attribute (or an empty one, both falsy) is
skipped entirely; otherwise the three tables are updated independently. -/
def recordStep (m : CitationIndex) (r : DblpRecord) : CitationIndex :=
  match r.key with
  | none => m
  | some k =>
    if k = "" then m
    else ⟨stepDoi m.dm k r.ee, stepTitle m.tm k r.title, stepCites m.cm r.year r.cite⟩

/-- Mirrors `build_citation_database` (merge.py lines 91-154): a single
left-to-right pass over the corpus records, starting from empty tables. -/
def build_citation_database (l : List DblpRecord) : CitationIndex :=
  l.foldl recordStep ⟨[], [], []⟩

/-- Result of one `get_openalex_citation_years` call: the years returned,
the cache afterwards, and the identifiers for which the remote source was
actually invoked during the call. -/
structure OaResult where
  years : List Int
  cache : List (String × List Int)
  calls : List String
deriving DecidableEq

/-- Mirrors `get_openalex_citation_years` (merge.py lines 44-80).  The
pyalex interaction is the oracle `remote`: `none` means the call raised
(caught by the `except`, which returns `[]` before the cache write), and
`some ys` means the paginated iteration delivered the years `ys`. -/
def get_openalex_citation_years (remote : String → Option (List Int)) (doi : String)
    (cache : List (String × List Int)) : OaResult :=
  if doi = "" then ⟨[], cache, []⟩
  else
    match alookup cache ("openalex_" ++ doi) with
    | some ys => ⟨ys, cache, []⟩
    | none =>
      match remote doi with
      | none => ⟨[], cache, [doi]⟩
      | some ys => ⟨ys, dput cache ("openalex_" ++ doi) ys, [doi]⟩

/-- Corpus-derived evidence for one paper (merge.py lines 193-199): DOI
lookup first, title lookup as fallback (Python `or`, so a falsy hit also
falls through), then the citation list of the found key when present. -/
def corpusEvidence (no_dblp : Bool) (dm tm : List (String × String))
    (cm : List (String × List Int)) (paper_doi paper_title : String) : List Int :=
  if no_dblp then []
  else
    match pyOr (alookup dm paper_doi) (alookup tm (normalize_title paper_title)) with
    | none => []
    | some k => if k = "" then [] else (alookup cm k).getD []

/-- Remote-derived evidence for one paper (merge.py lines 202-204): absent
when the OpenAlex source is disabled. -/
def remoteYearsOf (no_openalex : Bool) (remote : String → Option (List Int)) (doi : String)
    (cache : List (String × List Int)) : List Int :=
  if no_openalex then [] else (get_openalex_citation_years remote doi cache).years

/-- Result of resolving one row: the value of the appended column, the
cache afterwards, and the remote invocations made. -/
structure RowResult where
  out : String
  cache : List (String × List Int)
  calls : List String
deriving DecidableEq

/-- The last-cited-year cell computed from the combined evidence list
(merge.py lines 206-211): `str(max(all_citation_years))` when the list is
non-empty (Python `max` folds the binary maximum over the elements), the
sentinel otherwise. -/
def lastCitedOf (allYears : List Int) : String :=
  match allYears with
  | [] => "NOT_CITED"
  | y :: ys => toString (ys.foldl max y)

/-- The per-row body of the Phase 2 loop (merge.py lines 189-211): strip
the two cells, gather corpus and remote evidence, and emit the maximum
year as a string, or the sentinel when there is no evidence at all. -/
def resolveRow (no_dblp no_openalex : Bool) (dm tm : List (String × String))
    (cm : List (String × List Int)) (remote : String → Option (List Int))
    (doiRaw titleRaw : String) (cache : List (String × List Int)) : RowResult :=
  let pd := pyStrip doiRaw
  let pt := pyStrip titleRaw
  let corpus := corpusEvidence no_dblp dm tm cm pd pt
  let oa : OaResult :=
    if no_openalex then ⟨[], cache, []⟩ else get_openalex_citation_years remote pd cache
  ⟨lastCitedOf (corpus ++ oa.years), oa.cache, oa.calls⟩

/-- Mirrors `save_api_cache` (merge.py lines 36-40): the whole mapping is
persisted; the json codec round-trips a string-keyed map of integer lists
verbatim, so the on-disk document is modelled as the mapping itself. -/
def save_api_cache (cache : List (String × List Int)) : Option (List (String × List Int)) :=
  some cache

/-- Mirrors `load_api_cache` (merge.py lines 27-33): the persisted mapping
when the file exists, the empty mapping otherwise. -/
def load_api_cache (disk : Option (List (String × List Int))) : List (String × List Int) :=
  match disk with
  | some c => c
  | none => []

/-- Mirrors `header.index(name)` (merge.py lines 184-185): the first index
of an exact match, `none` standing for the raised `ValueError`. -/
def pyIndex (l : List String) (x : String) : Option Nat :=
  l.findIdx? (fun s => s = x)

/-- How a run of `process_papers` ends: a written output table, a caught
fatal error handled with `sys.exit(1)`, or an uncaught exception (e.g. an
`IndexError` on a short row) that kills the process after the `finally`
block has run. -/
inductive RunOutcome where
  | ok : List String → List (List String) → RunOutcome
  | exited : RunOutcome
  | crashed : RunOutcome
deriving DecidableEq

/-- Observable result of one run: the outcome, the in-memory cache at the
end, and how many times `save_api_cache` was invoked. -/
structure RunResult where
  outcome : RunOutcome
  cache : List (String × List Int)
  flushes : Nat
deriving DecidableEq

/-- The Phase 2 row loop (merge.py lines 188-211): resolve the rows in
order, threading the cache; a row too short for either column index is the
`IndexError` path, which aborts the loop (`none`) with the cache as
mutated so far. -/
def processRows (no_dblp no_openalex : Bool) (dm tm : List (String × String))
    (cm : List (String × List Int)) (remote : String → Option (List Int)) (di ti : Nat) :
    List (List String) → List (String × List Int) →
      Option (List (List String)) × List (String × List Int)
  | [], cache => (some [], cache)
  | r :: rs, cache =>
    match r[di]?, r[ti]? with
    | some dv, some tv =>
      let rr := resolveRow no_dblp no_openalex dm tm cm remote dv tv cache
      match processRows no_dblp no_openalex dm tm cm remote di ti rs rr.cache with
      | (some out, c2) => (some ((r ++ [rr.out]) :: out), c2)
      | (none, c2) => (none, c2)
    | _, _ => (none, cache)

/-- The body of the `try`/`except`/`finally` in `process_papers` (merge.py
lines 178-230).  Every exit path of this region runs the `finally`, so
every branch reports exactly one flush: a missing input file or a missing
header column is caught and exits; an empty file (`reader[0]`) or a short
row is an uncaught exception; otherwise the output table is produced. -/
def phase2 (no_dblp no_openalex : Bool) (idx : CitationIndex)
    (input : Option (List (List String))) (remote : String → Option (List Int))
    (cache0 : List (String × List Int)) : RunResult :=
  match input with
  | none => ⟨RunOutcome.exited, cache0, 1⟩
  | some [] => ⟨RunOutcome.crashed, cache0, 1⟩
  | some (header :: rows) =>
    match pyIndex header "DOI" with
    | none => ⟨RunOutcome.exited, cache0, 1⟩
    | some di =>
      match pyIndex header "title" with
      | none => ⟨RunOutcome.exited, cache0, 1⟩
      | some ti =>
        match processRows no_dblp no_openalex idx.dm idx.tm idx.cm remote di ti rows cache0 with
        | (some out, c2) => ⟨RunOutcome.ok (header ++ ["last_cited_year"]) out, c2, 1⟩
        | (none, c2) => ⟨RunOutcome.crashed, c2, 1⟩

/-- Mirrors `process_papers` (merge.py lines 158-230).  `dblpPresent` is
whether both `dblp.xml` and `dblp.dtd` exist, `dblpMalformed` whether
`etree.iterparse` raises `XMLSyntaxError`; in the latter case
`build_citation_database` calls `sys.exit(1)` from outside the
`try`/`finally`, so that path performs no flush.  `input` is the parsed
TSV (`none` = `FileNotFoundError`), and `cache0` the cache loaded at
start. -/
def process_papers (no_dblp no_openalex dblpPresent dblpMalformed : Bool)
    (corpus : List DblpRecord) (input : Option (List (List String)))
    (remote : String → Option (List Int)) (cache0 : List (String × List Int)) : RunResult :=
  if no_dblp then phase2 true no_openalex ⟨[], [], []⟩ input remote cache0
  else if dblpPresent = false then phase2 true no_openalex ⟨[], [], []⟩ input remote cache0
  else if dblpMalformed then ⟨RunOutcome.exited, cache0, 0⟩
  else phase2 false no_openalex (build_citation_database corpus) input remote cache0

/-- The title binding a record contributes for the normalized title `n`,
if any: its key, when the record has a non-empty key and a non-empty title
normalizing to `n` (with `n` non-empty). -/
def titleRegBinding (r : DblpRecord) (n : String) : Option String :=
  match r.key, r.title with
  | some k, some t =>
    if k ≠ "" ∧ t ≠ "" ∧ normalize_title t ≠ "" ∧ normalize_title t = n then some k else none
  | _, _ => none

/-- The key bound to the normalized title `n` by the latest registering
record of the list, if any (later records take priority). -/
def lastReg : List DblpRecord → String → Option String
  | [], _ => none
  | r :: l, n =>
    match lastReg l n with
    | some k => some k
    | none => titleRegBinding r n

/-! ## Supporting lemmas -/

/-- The result of ASCII lowering is never an upper-case letter. -/
theorem pyLowerChar_not_upper (c : Char) :
    ¬(65 ≤ (pyLowerChar c).toNat ∧ (pyLowerChar c).toNat ≤ 90) := by
  unfold pyLowerChar
  split
  case isTrue h =>
    obtain ⟨h1, h2⟩ := h
    revert h1 h2
    generalize c.toNat = n
    intro h1 h2
    interval_cases n <;> decide
  case isFalse h => exact h

/-- Lowering fixes any character that is not an upper-case letter. -/
theorem pyLowerChar_fixed (c : Char) (h : ¬(65 ≤ c.toNat ∧ c.toNat ≤ 90)) :
    pyLowerChar c = c := by
  unfold pyLowerChar
  exact if_neg h

/-- Every character of a normalized title is fixed by lowering, kept by
the filter, and is a lower-case letter or a digit. -/
theorem normalize_title_char_spec (s : String) (d : Char) (hd : d ∈ (normalize_title s).data) :
    pyLowerChar d = d ∧ isAsciiAlnum d = true ∧ goodOutput d = true := by
  have hd2 : d ∈ (s.data.map pyLowerChar).filter isAsciiAlnum := hd
  obtain ⟨hdm, hdk⟩ := List.mem_filter.mp hd2
  obtain ⟨c, _, rfl⟩ := List.mem_map.mp hdm
  have hup := pyLowerChar_not_upper c
  refine ⟨pyLowerChar_fixed _ hup, hdk, ?_⟩
  simp only [isAsciiAlnum, Bool.or_eq_true, Bool.and_eq_true, decide_eq_true_eq] at hdk
  simp only [goodOutput, Bool.or_eq_true, Bool.and_eq_true, decide_eq_true_eq]
  omega

/-! ## C6 -/

/-- C6.  Title normalization is pure and idempotent: normalizing twice
equals normalizing once, the empty string normalizes to itself, and every
character of the output is an ASCII lower-case letter or digit
(merge.py lines 84-88). -/
theorem normalize_title_idempotent_and_alnum (s : String) :
    normalize_title (normalize_title s) = normalize_title s ∧
    normalize_title "" = "" ∧
    ((normalize_title s).data.all goodOutput) = true := by
  refine ⟨?_, rfl, ?_⟩
  · have h1 : (normalize_title s).data.map pyLowerChar = (normalize_title s).data := by
      have := List.map_congr_left
        (fun d hd => (normalize_title_char_spec s d hd).1)
      simpa using this
    have h2 : ((normalize_title s).data.filter isAsciiAlnum) = (normalize_title s).data :=
      List.filter_eq_self.mpr (fun d hd => (normalize_title_char_spec s d hd).2.1)
    show String.mk (((normalize_title s).data.map pyLowerChar).filter isAsciiAlnum)
      = normalize_title s
    rw [h1, h2]
  · exact List.all_eq_true.mpr (fun d hd => (normalize_title_char_spec s d hd).2.2)

/-! ## Maximum-of-a-list lemmas for the resolver -/

/-- The seed is bounded by the fold of the binary maximum. -/
theorem le_foldl_max (ys : List Int) (y : Int) : y ≤ ys.foldl max y := by
  induction ys generalizing y with
  | nil => exact le_refl y
  | cons a ys ih => exact le_trans (le_max_left y a) (ih (max y a))

/-- Every element is bounded by the fold of the binary maximum. -/
theorem mem_le_foldl_max (ys : List Int) (y z : Int) (hz : z ∈ ys) : z ≤ ys.foldl max y := by
  induction ys generalizing y with
  | nil => cases hz
  | cons a ys ih =>
    rcases List.mem_cons.mp hz with rfl | hz2
    · exact le_trans (le_max_right y z) (le_foldl_max ys (max y z))
    · exact ih (max y a) hz2

/-- The fold of the binary maximum is the seed or one of the elements. -/
theorem foldl_max_mem (ys : List Int) (y : Int) : ys.foldl max y = y ∨ ys.foldl max y ∈ ys := by
  induction ys generalizing y with
  | nil => exact Or.inl rfl
  | cons a ys ih =>
    rw [List.foldl_cons]
    rcases ih (max y a) with h | h
    · rcases max_choice y a with h2 | h2
      · exact Or.inl (h.trans h2)
      · exact Or.inr (by rw [h, h2]; exact List.mem_cons_self a ys)
    · exact Or.inr (List.mem_cons_of_mem a h)

/-- Characterization of the last-cited-year cell: the sentinel exactly on
empty evidence, and otherwise the printed maximum of the evidence. -/
theorem lastCitedOf_spec (E : List Int) :
    (E = [] → lastCitedOf E = "NOT_CITED") ∧
    (E ≠ [] → ∃ M : Int, lastCitedOf E = toString M ∧ M ∈ E ∧ ∀ y ∈ E, y ≤ M) := by
  constructor
  · intro h; rw [h]; rfl
  · intro h
    match E with
    | [] => exact absurd rfl h
    | y :: ys =>
      refine ⟨ys.foldl max y, rfl, ?_, ?_⟩
      · rcases foldl_max_mem ys y with h2 | h2
        · rw [h2]; exact List.mem_cons_self y ys
        · exact List.mem_cons_of_mem y h2
      · intro z hz
        rcases List.mem_cons.mp hz with rfl | hz2
        · exact le_foldl_max ys z
        · exact mem_le_foldl_max ys y z hz2

/-- The appended cell of a resolved row, expressed through the two
evidence lists. -/
theorem resolveRow_out (no_dblp no_openalex : Bool) (dm tm : List (String × String))
    (cm : List (String × List Int)) (remote : String → Option (List Int))
    (d t : String) (cache : List (String × List Int)) :
    (resolveRow no_dblp no_openalex dm tm cm remote d t cache).out =
      lastCitedOf (corpusEvidence no_dblp dm tm cm (pyStrip d) (pyStrip t)
        ++ remoteYearsOf no_openalex remote (pyStrip d) cache) := by
  cases no_openalex <;> rfl

/-! ## C10 -/

/-- C10.  For the empty identifier the remote lookup returns the empty
list at once: the cache is returned untouched (for every cache, so no read
influences the result) and the remote source is not invoked
(merge.py lines 49-50). -/
theorem empty_doi_short_circuit (remote : String → Option (List Int))
    (cache : List (String × List Int)) :
    get_openalex_citation_years remote "" cache = ⟨[], cache, []⟩ := rfl

/-! ## C5 -/

/-- C5.  A cache hit (even with an empty year list) is returned as is: the
remote source is not invoked and the cache is unchanged, for any cache
state, hence also for the reloaded cache of a future run
(merge.py lines 53-55). -/
theorem cache_hit_skips_remote (remote : String → Option (List Int)) (doi : String)
    (cache : List (String × List Int)) (ys : List Int)
    (h1 : doi ≠ "") (h2 : alookup cache ("openalex_" ++ doi) = some ys) :
    get_openalex_citation_years remote doi cache = ⟨ys, cache, []⟩ := by
  unfold get_openalex_citation_years
  rw [if_neg h1, h2]

/-- Witness for C5: a concrete hit, with an arbitrary failing remote. -/
theorem cache_hit_skips_remote_witness :
    get_openalex_citation_years (fun _ => some [1]) "10.1/x" [("openalex_10.1/x", [2019])]
      = ⟨[2019], [("openalex_10.1/x", [2019])], []⟩ :=
  cache_hit_skips_remote (fun _ => some [1]) "10.1/x" [("openalex_10.1/x", [2019])] [2019]
    (by decide) (by decide)

/-! ## C4 -/

/-- C4.  A remote failure (the pyalex call raised) yields empty evidence
for the paper and writes nothing to the cache, so the identifier stays
absent and will be queried again on a later run; the exception is caught
inside the function (the model returns normally), so the row loop
continues (merge.py lines 59-80). -/
theorem remote_failure_leaves_cache_unchanged (remote : String → Option (List Int))
    (doi : String) (cache : List (String × List Int))
    (h1 : doi ≠ "") (h2 : alookup cache ("openalex_" ++ doi) = none)
    (h3 : remote doi = none) :
    (get_openalex_citation_years remote doi cache).years = [] ∧
    (get_openalex_citation_years remote doi cache).cache = cache ∧
    alookup (get_openalex_citation_years remote doi cache).cache ("openalex_" ++ doi) = none := by
  unfold get_openalex_citation_years
  rw [if_neg h1, h2, h3]
  exact ⟨rfl, rfl, h2⟩

/-- Witness for C4: a concrete failing lookup on a fresh cache. -/
theorem remote_failure_leaves_cache_unchanged_witness :
    (get_openalex_citation_years (fun _ => none) "10.1/y" []).years = [] ∧
    (get_openalex_citation_years (fun _ => none) "10.1/y" []).cache = [] ∧
    alookup (get_openalex_citation_years (fun _ => none) "10.1/y" []).cache
      ("openalex_" ++ "10.1/y") = none :=
  remote_failure_leaves_cache_unchanged (fun _ => none) "10.1/y" []
    (by decide) rfl rfl

/-! ## C3 -/

/-- C3.  Cache round-trip: storing a year list, flushing the cache to the
persistence layer and reloading it yields the stored list back for the
key (merge.py lines 27-40 and 78-79; the json codec round-trips the
string-keyed map of integer lists verbatim). -/
theorem cache_roundtrip (k : String) (v : List Int) (c : List (String × List Int)) :
    alookup (load_api_cache (save_api_cache (dput c k v))) k = some v := by
  simp [load_api_cache, save_api_cache, dput, alookup]

/-! ## C1 -/

/-- C1.  For every paper row the appended cell is the printed maximum of
the union of corpus-derived and remote-derived evidence when that union is
non-empty, and the sentinel "NOT_CITED" when it is empty
(merge.py lines 191-211). -/
theorem resolver_result_is_max_of_union (no_dblp no_openalex : Bool)
    (dm tm : List (String × String)) (cm : List (String × List Int))
    (remote : String → Option (List Int)) (d t : String)
    (cache : List (String × List Int)) :
    ((corpusEvidence no_dblp dm tm cm (pyStrip d) (pyStrip t) = [] ∧
        remoteYearsOf no_openalex remote (pyStrip d) cache = []) →
      (resolveRow no_dblp no_openalex dm tm cm remote d t cache).out = "NOT_CITED") ∧
    (¬(corpusEvidence no_dblp dm tm cm (pyStrip d) (pyStrip t) = [] ∧
        remoteYearsOf no_openalex remote (pyStrip d) cache = []) →
      ∃ M : Int, (resolveRow no_dblp no_openalex dm tm cm remote d t cache).out = toString M ∧
        (M ∈ corpusEvidence no_dblp dm tm cm (pyStrip d) (pyStrip t) ∨
          M ∈ remoteYearsOf no_openalex remote (pyStrip d) cache) ∧
        ∀ y : Int, (y ∈ corpusEvidence no_dblp dm tm cm (pyStrip d) (pyStrip t) ∨
          y ∈ remoteYearsOf no_openalex remote (pyStrip d) cache) → y ≤ M) := by
  rw [resolveRow_out no_dblp no_openalex dm tm cm remote d t cache]
  obtain ⟨hs, hm⟩ := lastCitedOf_spec
    (corpusEvidence no_dblp dm tm cm (pyStrip d) (pyStrip t)
      ++ remoteYearsOf no_openalex remote (pyStrip d) cache)
  constructor
  · intro ⟨h1, h2⟩
    exact hs (by rw [h1, h2]; rfl)
  · intro h
    have hne : corpusEvidence no_dblp dm tm cm (pyStrip d) (pyStrip t)
        ++ remoteYearsOf no_openalex remote (pyStrip d) cache ≠ [] := by
      intro hnil
      exact h (List.append_eq_nil.mp hnil)
    obtain ⟨M, hout, hmem, hub⟩ := hm hne
    refine ⟨M, hout, List.mem_append.mp hmem, ?_⟩
    intro y hy
    exact hub y (List.mem_append.mpr hy)

/-- Witness for C1, the spec's example: corpus evidence 2015 and 2018,
remote evidence 2020, so the appended cell is "2020". -/
theorem resolver_result_is_max_of_union_witness :
    (resolveRow false false [("d1", "k1")] [] [("k1", [2015, 2018])]
      (fun _ => some [2020]) "d1" "T" []).out = "2020" := by
  have h := (resolver_result_is_max_of_union false false [("d1", "k1")] []
    [("k1", [2015, 2018])] (fun _ => some [2020]) "d1" "T" []).2 (by decide)
  obtain ⟨M, hout, hmem, hub⟩ := h
  have h2020 : (2020 : Int) ≤ M := hub 2020 (by right; decide)
  have hc : corpusEvidence false [("d1", "k1")] [] [("k1", [2015, 2018])]
      (pyStrip "d1") (pyStrip "T") = [2015, 2018] := by decide
  have hr : remoteYearsOf false (fun _ => some [2020]) (pyStrip "d1") [] = [2020] := by decide
  have hM : M = 2015 ∨ M = 2018 ∨ M = 2020 := by
    rw [hc, hr] at hmem
    simp at hmem
    tauto
  have hMv : M = 2020 := by omega
  rw [hMv] at hout
  exact hout

/-! ## C2 -/

/-- Every exit path of the try/except/finally region flushes the cache
exactly once: the finally block runs for the caught fatal errors, for the
uncaught exceptions and for normal completion alike. -/
theorem phase2_flushes (no_dblp no_openalex : Bool) (idx : CitationIndex)
    (input : Option (List (List String))) (remote : String → Option (List Int))
    (cache0 : List (String × List Int)) :
    (phase2 no_dblp no_openalex idx input remote cache0).flushes = 1 := by
  rcases input with _ | ⟨_ | ⟨header, rows⟩⟩
  · rfl
  · rfl
  · rcases hdi : pyIndex header "DOI" with _ | di
    · simp [phase2, hdi]
    · rcases hti : pyIndex header "title" with _ | ti
      · simp [phase2, hdi, hti]
      · rcases hpr : processRows no_dblp no_openalex idx.dm idx.tm idx.cm remote di ti rows cache0
          with ⟨o, c2⟩
        rcases o with _ | out <;> simp [phase2, hdi, hti, hpr]

/-- Counterexample for C2 as stated: a run whose corpus is present but
malformed terminates through the sys.exit in build_citation_database,
before the try/finally region, so the flush runs zero times rather than
exactly once (merge.py lines 106-111 versus 228-230). -/
theorem flush_skipped_on_malformed_corpus :
    (process_papers false false true true [] (some [["DOI", "title"]])
      (fun _ => none) []).flushes = 0 ∧
    ¬(process_papers false false true true [] (some [["DOI", "title"]])
      (fun _ => none) []).flushes = 1 := by
  constructor
  · rfl
  · decide

/-- C2 (amended).  For every run that reaches the input-processing phase
— that is, every run not aborted by the malformed-corpus fatal exit during
index construction — the cache flush is invoked exactly once, including
runs that terminate due to an unrecovered error partway through the row
loop (merge.py lines 228-230). -/
theorem flush_exactly_once_when_phase2_reached (no_dblp no_openalex dblpPresent dblpMalformed : Bool)
    (corpus : List DblpRecord) (input : Option (List (List String)))
    (remote : String → Option (List Int)) (cache0 : List (String × List Int))
    (h : no_dblp = true ∨ dblpPresent = false ∨ dblpMalformed = false) :
    (process_papers no_dblp no_openalex dblpPresent dblpMalformed corpus input
      remote cache0).flushes = 1 := by
  unfold process_papers
  cases no_dblp
  · cases dblpPresent
    · simp [phase2_flushes]
    · cases dblpMalformed
      · simp [phase2_flushes]
      · simp at h
  · simp [phase2_flushes]

/-- Witness for C2 (amended): a run with the corpus disabled that dies on
a missing input file still flushes exactly once. -/
theorem flush_exactly_once_when_phase2_reached_witness :
    (process_papers true false false false [] none (fun _ => none) []).flushes = 1 :=
  flush_exactly_once_when_phase2_reached true false false false [] none
    (fun _ => none) [] (Or.inl rfl)

/-! ## C8 -/

/-- When the row loop completes, the output rows are exactly the input
rows in order, each with one value appended. -/
theorem processRows_ok (no_dblp no_openalex : Bool) (dm tm : List (String × String))
    (cm : List (String × List Int)) (remote : String → Option (List Int)) (di ti : Nat) :
    ∀ (rows : List (List String)) (cache : List (String × List Int))
      (out : List (List String)) (cache2 : List (String × List Int)),
      processRows no_dblp no_openalex dm tm cm remote di ti rows cache = (some out, cache2) →
      ∃ vals : List String, vals.length = rows.length ∧
        out = List.zipWith (fun r v => r ++ [v]) rows vals := by
  intro rows
  induction rows with
  | nil =>
    intro cache out cache2 h
    simp only [processRows, Prod.mk.injEq, Option.some.injEq] at h
    exact ⟨[], rfl, by rw [← h.1]; rfl⟩
  | cons r rs ih =>
    intro cache out cache2 h
    simp only [processRows] at h
    rcases hdv : r[di]? with _ | dv <;> rw [hdv] at h
    · simp at h
    · rcases htv : r[ti]? with _ | tv <;> rw [htv] at h
      · simp at h
      · simp only at h
        rcases hrec : processRows no_dblp no_openalex dm tm cm remote di ti rs
            (resolveRow no_dblp no_openalex dm tm cm remote dv tv cache).cache
          with ⟨o, c2⟩
        rw [hrec] at h
        rcases o with _ | o2
        · simp at h
        · simp only [Prod.mk.injEq, Option.some.injEq] at h
          obtain ⟨vals, hlen, hzip⟩ := ih _ o2 c2 (by rw [hrec])
          refine ⟨(resolveRow no_dblp no_openalex dm tm cm remote dv tv cache).out :: vals,
            by simp [hlen], ?_⟩
          rw [← h.1, hzip]
          rfl

/-- A phase-2 run that produces an output table reproduces the header with
exactly the one appended column name, and each data row verbatim with one
appended cell. -/
theorem phase2_ok (no_dblp no_openalex : Bool) (idx : CitationIndex)
    (header : List String) (rows : List (List String))
    (remote : String → Option (List Int)) (cache0 : List (String × List Int))
    (h2 : List String) (out : List (List String))
    (h : (phase2 no_dblp no_openalex idx (some (header :: rows)) remote cache0).outcome
      = RunOutcome.ok h2 out) :
    h2 = header ++ ["last_cited_year"] ∧ ∃ vals : List String, vals.length = rows.length ∧
      out = List.zipWith (fun r v => r ++ [v]) rows vals := by
  rcases hdi : pyIndex header "DOI" with _ | di
  · simp [phase2, hdi] at h
  · rcases hti : pyIndex header "title" with _ | ti
    · simp [phase2, hdi, hti] at h
    · rcases hpr : processRows no_dblp no_openalex idx.dm idx.tm idx.cm remote di ti rows cache0
        with ⟨o, c2⟩
      rcases o with _ | o2
      · simp [phase2, hdi, hti, hpr] at h
      · simp only [phase2, hdi, hti, hpr, RunOutcome.ok.injEq] at h
        obtain ⟨hh, ho⟩ := h
        exact ⟨hh.symm, by
          obtain ⟨vals, hlen, hzip⟩ := processRows_ok no_dblp no_openalex idx.dm idx.tm idx.cm
            remote di ti rows cache0 o2 c2 hpr
          exact ⟨vals, hlen, by rw [← ho, hzip]⟩⟩

/-- C8.  Whenever a run writes an output table, that table preserves the
row order and every original field verbatim, appends exactly one column:
the output header is the input header plus "last_cited_year", the output
row count equals the input row count, and each output row is the
corresponding input row with one cell appended (merge.py lines 187-217). -/
theorem output_preserves_rows_and_appends_column (no_dblp no_openalex dblpPresent dblpMalformed : Bool)
    (corpus : List DblpRecord) (header : List String) (rows : List (List String))
    (remote : String → Option (List Int)) (cache0 : List (String × List Int))
    (h2 : List String) (out : List (List String))
    (h : (process_papers no_dblp no_openalex dblpPresent dblpMalformed corpus
      (some (header :: rows)) remote cache0).outcome = RunOutcome.ok h2 out) :
    h2 = header ++ ["last_cited_year"] ∧ h2.length = header.length + 1 ∧
    out.length = rows.length ∧ ∃ vals : List String, vals.length = rows.length ∧
      out = List.zipWith (fun r v => r ++ [v]) rows vals := by
  have hp : ∃ nd idx, (phase2 nd no_openalex idx (some (header :: rows)) remote cache0).outcome
      = RunOutcome.ok h2 out := by
    unfold process_papers at h
    cases no_dblp
    · cases dblpPresent
      · exact ⟨true, ⟨[], [], []⟩, by simpa using h⟩
      · cases dblpMalformed
        · exact ⟨false, build_citation_database corpus, by simpa using h⟩
        · simp at h
    · exact ⟨true, ⟨[], [], []⟩, by simpa using h⟩
  obtain ⟨nd, idx, hph⟩ := hp
  obtain ⟨hh, vals, hlen, hzip⟩ := phase2_ok nd no_openalex idx header rows remote cache0 h2 out hph
  refine ⟨hh, by rw [hh]; simp, ?_, vals, hlen, hzip⟩
  rw [hzip, List.length_zipWith, hlen, Nat.min_self]

/-- Witness for C8: a concrete two-column run with both sources disabled
produces the table with the one appended column and unchanged rows. -/
theorem output_preserves_rows_and_appends_column_witness :
    ["DOI", "title", "x", "last_cited_year"] = ["DOI", "title", "x"] ++ ["last_cited_year"] ∧
    (["DOI", "title", "x", "last_cited_year"] : List String).length
      = (["DOI", "title", "x"] : List String).length + 1 ∧
    ([["d1", "t1", "v1", "NOT_CITED"]] : List (List String)).length
      = ([["d1", "t1", "v1"]] : List (List String)).length ∧
    ∃ vals : List String, vals.length = ([["d1", "t1", "v1"]] : List (List String)).length ∧
      [["d1", "t1", "v1", "NOT_CITED"]]
        = List.zipWith (fun r v => r ++ [v]) [["d1", "t1", "v1"]] vals :=
  output_preserves_rows_and_appends_column true true false false []
    ["DOI", "title", "x"] [["d1", "t1", "v1"]] (fun _ => none) []
    ["DOI", "title", "x", "last_cited_year"] [["d1", "t1", "v1", "NOT_CITED"]]
    (by decide)

/-! ## Title-map lemmas for the indexer -/

/-- One indexing step changes the binding visible for a normalized title
exactly when the record registers that title. -/
theorem recordStep_tm_lookup (m : CitationIndex) (r : DblpRecord) (n : String) :
    alookup (recordStep m r).tm n =
      match titleRegBinding r n with
      | some k => some k
      | none => alookup m.tm n := by
  rcases r with ⟨key, title, ee, year, cite⟩
  rcases key with _ | k
  · rfl
  · simp only [recordStep, titleRegBinding]
    by_cases hk : k = ""
    · rcases title with _ | t <;> simp [hk]
    · rcases title with _ | t
      · simp [hk, stepTitle]
      · simp only [hk, if_false]
        by_cases ht : t = ""
        · simp [ht, stepTitle, hk]
        · by_cases hn : normalize_title t = ""
          · simp [stepTitle, ht, hn, hk]
          · simp only [stepTitle, ht, hn, if_neg, if_false, dput]
            by_cases heq : normalize_title t = n
            · have hn2 : ¬n = "" := by rw [← heq]; exact hn
              simp [alookup, heq, hk, ht, hn, hn2]
            · have hne : ¬(n = normalize_title t) := fun hc => heq hc.symm
              simp [alookup, hne, hk, ht, hn, heq]

/-- Folding the indexer over a record list: the visible binding for a
normalized title is that of the latest registering record, else the
initial one. -/
theorem build_tm_lookup_aux (l : List DblpRecord) :
    ∀ (m : CitationIndex) (n : String),
      alookup (l.foldl recordStep m).tm n =
        match lastReg l n with
        | some k => some k
        | none => alookup m.tm n := by
  induction l with
  | nil => intro m n; rfl
  | cons r l ih =>
    intro m n
    rw [List.foldl_cons, ih (recordStep m r) n, recordStep_tm_lookup m r n]
    show _ = (match lastReg (r :: l) n with
      | some k => some k
      | none => alookup m.tm n)
    simp only [lastReg]
    cases lastReg l n
    · rfl
    · rfl

/-- The title map of the built index answers with the latest registering
record's key. -/
theorem build_tm_lookup (l : List DblpRecord) (n : String) :
    alookup (build_citation_database l).tm n = lastReg l n := by
  rw [build_citation_database, build_tm_lookup_aux l ⟨[], [], []⟩ n]
  cases lastReg l n <;> rfl

/-- A registration answered by the right part of an appended list is the
answer for the whole list: later records take priority. -/
theorem lastReg_append_some (l1 : List DblpRecord) {l2 : List DblpRecord} {n k : String}
    (h : lastReg l2 n = some k) : lastReg (l1 ++ l2) n = some k := by
  induction l1 with
  | nil => simpa using h
  | cons r l1 ih => simp [lastReg, ih]

/-- A latest-registration answer comes from some record of the list. -/
theorem lastReg_mem (l : List DblpRecord) (n k : String) (h : lastReg l n = some k) :
    ∃ r ∈ l, titleRegBinding r n = some k := by
  induction l with
  | nil => simp [lastReg] at h
  | cons r l ih =>
    simp only [lastReg] at h
    rcases hL : lastReg l n with _ | k2
    · rw [hL] at h
      exact ⟨r, List.mem_cons_self r l, by simpa using h⟩
    · rw [hL] at h
      have hk : k2 = k := by simpa using h
      subst hk
      obtain ⟨r2, hr2, hb⟩ := ih hL
      exact ⟨r2, List.mem_cons_of_mem r hr2, hb⟩

/-- No record ever registers the empty normalized title. -/
theorem titleRegBinding_empty (r : DblpRecord) : titleRegBinding r "" = none := by
  rcases r with ⟨key, title, ee, year, cite⟩
  rcases key with _ | k
  · rfl
  · rcases title with _ | t
    · rfl
    · simp only [titleRegBinding]
      split
      · next h => exact absurd h.2.2.2 h.2.2.1
      · rfl

/-- The built title map holds no binding for the empty string. -/
theorem build_tm_empty (l : List DblpRecord) :
    alookup (build_citation_database l).tm "" = none := by
  rw [build_tm_lookup]
  induction l with
  | nil => rfl
  | cons r l ih => simp [lastReg, ih, titleRegBinding_empty]

/-- The first matching electronic-edition field determines the extracted
identifier: if position i matches and no earlier position does, the scan
returns the substring after the marker of that field. -/
theorem firstDoi_first_match :
    ∀ (ees : List String) (i : Nat) (e : String),
      ees[i]? = some e → e ≠ "" → strContains e "doi.org/" = true →
      (∀ (j : Nat) (e2 : String), j < i → ees[j]? = some e2 →
        ¬(e2 ≠ "" ∧ strContains e2 "doi.org/" = true)) →
      firstDoi ees = some (afterMarker e) := by
  intro ees
  induction ees with
  | nil => intro i e hi; simp at hi
  | cons a es ih =>
    intro i e hi he hc hmin
    cases i with
    | zero =>
      simp only [List.getElem?_cons_zero, Option.some.injEq] at hi
      subst hi
      rw [firstDoi, if_pos ⟨he, hc⟩]
    | succ i2 =>
      have ha := hmin 0 a (Nat.succ_pos i2) (by simp)
      rw [firstDoi, if_neg ha]
      exact ih i2 e (by simpa using hi) he hc
        (fun j e2 hj hje => hmin (j + 1) e2 (by omega) (by simpa using hje))

/-! ## C9 -/

/-- C9 (amended).  For every corpus record with a non-empty key and a
title whose normalization is non-empty, the built title map resolves that
normalization to the record's key or to the key of a later registering
record with the same normalized title (last-writer-wins over the single
pass); and a record contributes at most one identifier, taken from the
first electronic-edition field containing the DOI marker, binding the
substring after the marker to the record's key
(merge.py lines 127-137). -/
theorem index_title_and_doi_contracts :
    (∀ (l1 l2 : List DblpRecord) (r : DblpRecord) (k t : String),
      r.key = some k → k ≠ "" → r.title = some t → normalize_title t ≠ "" →
      ∃ k2, alookup (build_citation_database (l1 ++ r :: l2)).tm (normalize_title t) = some k2 ∧
        (k2 = k ∨ ∃ r2 ∈ l2, titleRegBinding r2 (normalize_title t) = some k2)) ∧
    (∀ (dm : List (String × String)) (k : String) (ees : List String) (i : Nat) (e : String),
      ees[i]? = some e → e ≠ "" → strContains e "doi.org/" = true →
      (∀ (j : Nat) (e2 : String), j < i → ees[j]? = some e2 →
        ¬(e2 ≠ "" ∧ strContains e2 "doi.org/" = true)) →
      stepDoi dm k ees = dput dm (afterMarker e) k) ∧
    (∀ (dm : List (String × String)) (k : String) (ees : List String),
      stepDoi dm k ees = dm ∨ ∃ d, stepDoi dm k ees = dput dm d k) := by
  refine ⟨?_, ?_, ?_⟩
  · intro l1 l2 r k t hk hkne ht hn
    have hreg : titleRegBinding r (normalize_title t) = some k := by
      have htne : t ≠ "" := by
        intro hc
        rw [hc] at hn
        exact hn rfl
      simp [titleRegBinding, hk, ht, hkne, htne, hn]
    rw [build_tm_lookup]
    rcases hL : lastReg l2 (normalize_title t) with _ | k2
    · have h1 : lastReg (r :: l2) (normalize_title t) = some k := by
        simp [lastReg, hL, hreg]
      rw [lastReg_append_some l1 h1]
      exact ⟨k, rfl, Or.inl rfl⟩
    · have h1 : lastReg (r :: l2) (normalize_title t) = some k2 := by
        simp [lastReg, hL]
      rw [lastReg_append_some l1 h1]
      exact ⟨k2, rfl, Or.inr (lastReg_mem l2 (normalize_title t) k2 hL)⟩
  · intro dm k ees i e hi he hc hmin
    rw [stepDoi, firstDoi_first_match ees i e hi he hc hmin]
  · intro dm k ees
    rw [stepDoi]
    cases firstDoi ees
    · exact Or.inl rfl
    · exact Or.inr ⟨_, rfl⟩

/-- Counterexample for C9 as stated: a record with a key and the non-empty
title "!!!" whose normalization is empty is never registered, so the title
map resolves its normalized title to nothing at all
(merge.py lines 127-131 guard on the normalized, not the raw, title). -/
theorem title_with_empty_normalization_not_indexed :
    alookup (build_citation_database
        [⟨some "k", some "!!!", [], none, []⟩]).tm (normalize_title "!!!") = none ∧
    ("!!!" : String) ≠ "" := by
  constructor
  · decide
  · decide

/-- Witness for C9 (amended): a one-record corpus resolves its normalized
title to its own key, and a two-field record contributes the identifier of
its first marker-bearing field. -/
theorem index_title_and_doi_contracts_witness :
    (∃ k2, alookup (build_citation_database
        ([] ++ (⟨some "k1", some "A B", [], none, []⟩ : DblpRecord) :: [])).tm
        (normalize_title "A B") = some k2 ∧
      (k2 = "k1" ∨ ∃ r2 ∈ ([] : List DblpRecord),
        titleRegBinding r2 (normalize_title "A B") = some k2)) ∧
    stepDoi ([] : List (String × String)) "k9" ["x", "https://doi.org/10.5/z"]
      = dput [] (afterMarker "https://doi.org/10.5/z") "k9" := by
  constructor
  · exact index_title_and_doi_contracts.1 [] [] ⟨some "k1", some "A B", [], none, []⟩
      "k1" "A B" rfl (by decide) rfl (by decide)
  · exact index_title_and_doi_contracts.2.1 [] "k9" ["x", "https://doi.org/10.5/z"] 1
      "https://doi.org/10.5/z" (by decide) (by decide) (by decide)
      (by
        intro j e2 hj hje
        have hj0 : j = 0 := by omega
        subst hj0
        simp only [List.getElem?_cons_zero, Option.some.injEq] at hje
        subst hje
        decide)

/-! ## C7 -/

/-- Counterexample for C7 as stated: the resolver does look the corpus
maps up with the empty key, and the identifier map can contain an
empty-string identifier — a record whose electronic-edition text ends in
the DOI marker registers the empty substring after it — so a paper row
with empty identifier and empty title collects that record's citation
evidence (merge.py lines 133-137 and 193-199). -/
theorem empty_doi_key_collects_corpus_evidence :
    corpusEvidence false
      (build_citation_database [⟨some "a", none, ["https://doi.org/"], none, []⟩,
        ⟨some "b", none, [], some "2000", ["a"]⟩]).dm
      (build_citation_database [⟨some "a", none, ["https://doi.org/"], none, []⟩,
        ⟨some "b", none, [], some "2000", ["a"]⟩]).tm
      (build_citation_database [⟨some "a", none, ["https://doi.org/"], none, []⟩,
        ⟨some "b", none, [], some "2000", ["a"]⟩]).cm
      "" "" = [2000] ∧ ([2000] : List Int) ≠ [] := by
  constructor
  · rfl
  · simp

/-- C7 (amended).  For a paper row whose identifier and title are both
empty, no corpus evidence is collected provided the built identifier map
has no binding for the empty string; the empty-key title lookup can never
match, because the indexer only registers non-empty normalized titles
(merge.py lines 127-131 and 193-199). -/
theorem empty_key_lookup_yields_no_corpus_evidence (no_dblp : Bool) (l : List DblpRecord)
    (h : alookup (build_citation_database l).dm "" = none) :
    corpusEvidence no_dblp (build_citation_database l).dm (build_citation_database l).tm
      (build_citation_database l).cm "" "" = [] := by
  cases no_dblp
  · have hn : normalize_title "" = "" := rfl
    simp only [corpusEvidence, if_false, hn, h, build_tm_empty l, pyOr]
    rfl
  · rfl

/-- Witness for C7 (amended): the empty corpus builds empty maps, whose
identifier map trivially lacks the empty key. -/
theorem empty_key_lookup_yields_no_corpus_evidence_witness :
    corpusEvidence false (build_citation_database []).dm (build_citation_database []).tm
      (build_citation_database []).cm "" "" = [] :=
  empty_key_lookup_yields_no_corpus_evidence false [] rfl
